import Mathlib

/-!
Verification of the Freelance-Finance dashboard's client-side logic.

Dates are modelled as integers counting days since the Unix epoch
(1970-01-01).  Every transaction date in the application is normalized to
noon UTC of its calendar day ("timezone-safe dates"), so chronological
order of the JS `Date` values and of their ISO date strings coincides with
the order of these day numbers.  Currency amounts are modelled as rationals.
-/

/-- Transaction type: the application stores `type` as `"income"` or
`"expense"`. -/
inductive TType where
  | income
  | expense
deriving DecidableEq

/-- A transaction as used by the chart / AI-summary logic: a calendar day
(day number since epoch), a type, an amount, and an expense category. -/
structure Tx where
  date : Int
  ttype : TType
  amount : ℚ
  category : String := ""
deriving DecidableEq

/-! ## Date helper functions (from the source's date utilities)

`getUTCDay` of a day number: 1970-01-01 was a Thursday (weekday 4). -/

/-- Weekday of a day number, 0 = Sunday .. 6 = Saturday (JS `getUTCDay`). -/
def dayOfWeek (d : Int) : Int := (d + 4) % 7

/-- `getStartOfWeek`: move back to the preceding (or same) Sunday. -/
def getStartOfWeek (d : Int) : Int := d - dayOfWeek d

/-- Civil (proleptic Gregorian) date: year, month 1..12, day 1..31. -/
structure Civil where
  year : Int
  month : Int
  day : Int
deriving DecidableEq

/-- Convert a day number since 1970-01-01 to a civil date
(standard days-from-civil inverse, floor-division based). -/
def civilFromDays (z0 : Int) : Civil :=
  let z := z0 + 719468
  let era := z.fdiv 146097
  let doe := z.fmod 146097
  let yoe := (doe - doe.fdiv 1460 + doe.fdiv 36524 - doe.fdiv 146096).fdiv 365
  let y := yoe + era * 400
  let doy := doe - (365 * yoe + yoe.fdiv 4 - yoe.fdiv 100)
  let mp := (5 * doy + 2).fdiv 153
  let d := doy - (153 * mp + 2).fdiv 5 + 1
  let m := mp + (if mp < 10 then 3 else -9)
  ⟨y + (if m ≤ 2 then 1 else 0), m, d⟩

/-- Convert a civil date to a day number since 1970-01-01.  The `day` field
may lie outside 1..31 (as with JS `setUTCDate`): the result is linear in
`day`, so out-of-range days roll over exactly like JS date normalization. -/
def daysFromCivil (year month day : Int) : Int :=
  let y := year - (if month ≤ 2 then 1 else 0)
  let era := y.fdiv 400
  let yoe := y - era * 400
  let doy := (153 * (month + (if month > 2 then -3 else 9)) + 2).fdiv 5 + day - 1
  let doe := yoe * 365 + yoe.fdiv 4 - yoe.fdiv 100 + doy
  era * 146097 + doe - 719468

/-- Day number for a civil date whose month may lie outside 1..12
(JS `setUTCMonth` semantics: months are normalized with year carry). -/
def daysFromCivilNorm (year month day : Int) : Int :=
  daysFromCivil (year + (month - 1).fdiv 12) ((month - 1).fmod 12 + 1) day

/-- JS `setUTCMonth(getUTCMonth() + k)` on a day number. -/
def addUTCMonths (d k : Int) : Int :=
  let c := civilFromDays d
  daysFromCivilNorm c.year (c.month + k) c.day

/-- JS `setUTCFullYear(getUTCFullYear() + k)` on a day number. -/
def addUTCYears (d k : Int) : Int :=
  let c := civilFromDays d
  daysFromCivilNorm (c.year + k) c.month c.day

/-- `getStartOfMonth`: first day of the containing month. -/
def getStartOfMonth (d : Int) : Int :=
  let c := civilFromDays d
  daysFromCivil c.year c.month 1

/-- `getStartOfQuarter`: first day of the containing quarter. -/
def getStartOfQuarter (d : Int) : Int :=
  let c := civilFromDays d
  daysFromCivil c.year (3 * ((c.month - 1).fdiv 3) + 1) 1

/-- `getStartOfYear`: January 1st of the containing year. -/
def getStartOfYear (d : Int) : Int :=
  let c := civilFromDays d
  daysFromCivil c.year 1 1

/-! ## Granularity selection (`processChartData`, first part) -/

/-- The five aggregation granularities appearing in `processChartData`. -/
inductive AggType where
  | daily
  | weekly
  | monthly
  | quarterly
  | yearly
deriving DecidableEq

/-- The granularity decision chain of `processChartData`, applied to the
inclusive day count `(end - start) / msPerDay + 1`. -/
def aggregationType (dayCount : Int) : AggType :=
  if dayCount > 365 * 2 then .yearly
  else if dayCount > 730 then .quarterly
  else if dayCount > 180 then .monthly
  else if dayCount > 45 then .weekly
  else .daily

/-- Inclusive day count of a range, as computed in `processChartData`. -/
def chartDayCount (s e : Int) : Int := e - s + 1

/-- Granularity chosen by `processChartData` for the range `[s, e]`. -/
def chartAgg (s e : Int) : AggType := aggregationType (chartDayCount s e)

/-! ## Bucketing (`processChartData`, main part) -/

/-- Per-bucket sums, pre-seeded as `{ income: 0, expense: 0 }`. -/
structure Sums where
  income : ℚ
  expense : ℚ
deriving DecidableEq

/-- The `groupedData` object: an association list keyed by bucket day
number, in insertion order (JS objects preserve insertion order of keys). -/
abbrev GroupedData := List (Int × Sums)

/-- JS property read `groupedData[key]`. -/
def lookupKey : GroupedData → Int → Option Sums
  | [], _ => none
  | (k', v') :: rest, k => if k' = k then some v' else lookupKey rest k

/-- JS property write `groupedData[key] = v`: replace if present, else
append (insertion order). -/
def setKey : GroupedData → Int → Sums → GroupedData
  | [], k, v => [(k, v)]
  | (k', v') :: rest, k, v =>
      if k' = k then (k', v) :: rest else (k', v') :: setKey rest k v

/-- Normalization of a date to its bucket key, per granularity (the
`switch` used both when seeding and when assigning transactions). -/
def bucketKey : AggType → Int → Int
  | .daily, d => d
  | .weekly, d => getStartOfWeek d
  | .monthly, d => getStartOfMonth d
  | .quarterly, d => getStartOfQuarter d
  | .yearly, d => getStartOfYear d

/-- Advance of the walking date in the seeding loop, per granularity. -/
def stepDate : AggType → Int → Int
  | .daily, d => d + 1
  | .weekly, d => d + 7
  | .monthly, d => addUTCMonths d 1
  | .quarterly, d => addUTCMonths d 3
  | .yearly, d => addUTCYears d 1

/-- The seeding loop `while (currentDate <= end) { groupedData[key] =
{income: 0, expense: 0}; step }`, with explicit fuel.  Every step advances
the walking date by at least one day, so `(e - s + 1).toNat` units of fuel
make the fuel bound unreachable and the recursion coincide with the JS
loop. -/
def seedLoop : Nat → Int → Int → AggType → GroupedData → GroupedData
  | 0, _, _, _, g => g
  | fuel + 1, cur, e, agg, g =>
      if cur ≤ e then
        seedLoop fuel (stepDate agg cur) e agg
          (setKey g (bucketKey agg cur) ⟨0, 0⟩)
      else g

/-- `groupedData` right after the seeding loop, before any transaction is
applied. -/
def seededData (s e : Int) : GroupedData :=
  seedLoop (chartDayCount s e).toNat s e (chartAgg s e) []

/-- Application of one transaction: accumulate into its bucket if (and only
if) that bucket key was seeded, otherwise drop it. -/
def applyTx (agg : AggType) (g : GroupedData) (t : Tx) : GroupedData :=
  let key := bucketKey agg t.date
  match lookupKey g key with
  | none => g
  | some sums =>
      if t.ttype = .income then
        setKey g key ⟨sums.income + t.amount, sums.expense⟩
      else
        setKey g key ⟨sums.income, sums.expense + t.amount⟩

/-- `groupedData` after the `data.forEach` accumulation pass. -/
def groupedOf (data : List Tx) (s e : Int) : GroupedData :=
  (data.foldl (applyTx (chartAgg s e)) (seededData s e))

/-- `Object.keys(groupedData).sort()`: the bucket keys in ascending order
(ISO-string order coincides with day-number order). -/
def chartKeys (data : List Tx) (s e : Int) : List Int :=
  List.insertionSort (· ≤ ·) ((groupedOf data s e).map Prod.fst)

/-! ### Label rendering -/

/-- English short month names (as `toLocaleDateString month:"short"`). -/
def monthShort (m : Int) : String :=
  ["Jan", "Feb", "Mar", "Apr", "May", "Jun",
   "Jul", "Aug", "Sep", "Oct", "Nov", "Dec"].getD (m - 1).toNat "Jan"

/-- English long month names (as `toLocaleDateString month:"long"`). -/
def monthLong (m : Int) : String :=
  ["January", "February", "March", "April", "May", "June", "July",
   "August", "September", "October", "November", "December"].getD
    (m - 1).toNat "January"

/-- English weekday names (as `toLocaleDateString weekday:"long"`). -/
def weekdayLong (w : Int) : String :=
  ["Sunday", "Monday", "Tuesday", "Wednesday", "Thursday", "Friday",
   "Saturday"].getD w.toNat "Sunday"

/-- `toLocaleDateString("en-US", {month:"short", day:"numeric"})`. -/
def fmtShortMD (d : Int) : String :=
  let c := civilFromDays d
  let m := monthShort c.month
  let dd := toString c.day
  s!"{m} {dd}"

/-- `toLocaleDateString("en-US", {month:"short", day:"numeric",
year:"numeric"})`. -/
def fmtShortMDY (d : Int) : String :=
  let c := civilFromDays d
  let m := monthShort c.month
  let dd := toString c.day
  let y := toString c.year
  s!"{m} {dd}, {y}"

/-- The chart label pushed for the bucket starting at day `d`. -/
def labelFor (agg : AggType) (d : Int) : String :=
  match agg with
  | .yearly => toString (civilFromDays d).year
  | .quarterly =>
      let c := civilFromDays d
      let q := toString ((c.month - 1).fdiv 3 + 1)
      let y := toString c.year
      s!"Q{q} {y}"
  | .monthly =>
      let c := civilFromDays d
      let m := monthShort c.month
      let y := toString c.year
      s!"{m} {y}"
  | .weekly =>
      let md := fmtShortMD d
      s!"Wk of {md}"
  | .daily => fmtShortMD d

/-- The tooltip title pushed for the bucket starting at day `d`. -/
def tooltipFor (agg : AggType) (d : Int) : String :=
  match agg with
  | .yearly =>
      let a := fmtShortMDY d
      let b := fmtShortMDY (daysFromCivilNorm (civilFromDays d).year
        ((civilFromDays d).month + 12) 0)
      s!"{a} - {b}"
  | .quarterly =>
      let a := fmtShortMDY d
      let b := fmtShortMDY (daysFromCivilNorm (civilFromDays d).year
        ((civilFromDays d).month + 3) 0)
      s!"{a} - {b}"
  | .monthly =>
      let c := civilFromDays d
      let m := monthLong c.month
      let y := toString c.year
      s!"{m} {y}"
  | .weekly =>
      let a := fmtShortMD d
      let b := fmtShortMD (d + 6)
      s!"{a} - {b}"
  | .daily =>
      let c := civilFromDays d
      let w := weekdayLong (dayOfWeek d)
      let m := monthLong c.month
      let dd := toString c.day
      s!"{w}, {m} {dd}"

/-- The record returned by `processChartData`. -/
structure ChartOut where
  labels : List String
  tooltipTitles : List String
  incomeData : List ℚ
  expenseData : List ℚ
deriving DecidableEq

/-- Full `processChartData(data, startDateStr, endDateStr)`. -/
def processChartData (data : List Tx) (s e : Int) : ChartOut :=
  let agg := chartAgg s e
  let grouped := groupedOf data s e
  let sortedKeys := chartKeys data s e
  { labels := sortedKeys.map (labelFor agg)
    tooltipTitles := sortedKeys.map (tooltipFor agg)
    incomeData := sortedKeys.map (fun k => (lookupKey grouped k).getD ⟨0, 0⟩ |>.income)
    expenseData := sortedKeys.map (fun k => (lookupKey grouped k).getD ⟨0, 0⟩ |>.expense) }

/-! ## Summary aggregation (`updateGlobalSummary`) -/

/-- Fixed tax rate. -/
def TAX_RATE : ℚ := 0.25

/-- Fixed savings rate. -/
def SAVINGS_RATE : ℚ := 0.2

/-- The derived figures of `updateGlobalSummary`, from the two
server-reported totals. -/
structure SummaryFigures where
  netProfit : ℚ
  taxToSave : ℚ
  recommendedSavings : ℚ
  availableBalance : ℚ
deriving DecidableEq

/-- Core derivation in `updateGlobalSummary`. -/
def updateGlobalSummary (totalIncome totalExpenses : ℚ) : SummaryFigures :=
  let netProfit := totalIncome - totalExpenses
  let taxToSave := totalIncome * TAX_RATE
  let recommendedSavings := max 0 (netProfit * SAVINGS_RATE)
  let availableBalance := netProfit - taxToSave - recommendedSavings
  ⟨netProfit, taxToSave, recommendedSavings, availableBalance⟩

/-- The profit-margin expression of `updateGlobalSummary`. -/
def profitMargin (totalIncome totalExpenses : ℚ) : ℚ :=
  if totalIncome > 0 then (totalIncome - totalExpenses) / totalIncome * 100
  else if totalIncome - totalExpenses < 0 then -100
  else 0

/-- Which bar is shown and its width, from the computed margin. -/
structure MarginBar where
  profitBarShown : Bool
  width : ℚ
deriving DecidableEq

/-- The bar-indicator update: non-negative margins show the profit bar with
width `min 100 margin`; negative margins show the loss bar with width
`min 100 |margin|`. -/
def marginBarOf (margin : ℚ) : MarginBar :=
  if margin ≥ 0 then ⟨true, min 100 margin⟩
  else ⟨false, min 100 |margin|⟩

/-! ## Pagination (`updateTotalPages`) -/

/-- Fixed page size. -/
def TRANSACTIONS_PER_PAGE : Nat := 10

/-- `totalPages = Math.ceil(count / TRANSACTIONS_PER_PAGE) || 1`: ceiling
division of the server count by the page size, with `0` (falsy) replaced
by `1`. -/
def updateTotalPages (count : Nat) : Nat :=
  let pages := (count + (TRANSACTIONS_PER_PAGE - 1)) / TRANSACTIONS_PER_PAGE
  if pages = 0 then 1 else pages

/-! ## AI summary (`generateAISummary`) -/

/-- One step of building `expenseBreakdown`:
`expenseBreakdown[cat] = (expenseBreakdown[cat] || 0) + amount`, with JS
insertion-order keys. -/
def addToBreakdown : List (String × ℚ) → String → ℚ → List (String × ℚ)
  | [], c, a => [(c, a)]
  | (c', v') :: rest, c, a =>
      if c' = c then (c', v' + a) :: rest
      else (c', v') :: addToBreakdown rest c a

/-- The `expenseBreakdown` object built from the expense transactions, as
an association list in key-insertion order (JS `Object.keys` order). -/
def expenseBreakdown (data : List Tx) : List (String × ℚ) :=
  (data.filter (fun t => t.ttype = .expense)).foldl
    (fun b t => addToBreakdown b t.category t.amount) []

/-- One step of
`Object.keys(expenseBreakdown).reduce((a,b) => breakdown[a] > breakdown[b] ? a : b, null)`.
The accumulator carries the key together with its (unique) breakdown value;
the `null` start compares as `undefined > x = false`, so the first key is
always taken. -/
def pickLarger (a : Option (String × ℚ)) (p : String × ℚ) :
    Option (String × ℚ) :=
  match a with
  | none => some p
  | some q => if q.2 > p.2 then some q else some p

/-- The `largestExpenseCategory` computed in `generateAISummary`. -/
def largestExpenseCategory (data : List Tx) : Option String :=
  ((expenseBreakdown data).foldl pickLarger none).map Prod.fst

/-- Fixed message shown when the API credential is missing. -/
def missingKeyMessage : String :=
  "AI API key is missing. Please check your .env file."

/-- Fixed message shown when the AI request fails. -/
def failureMessage : String :=
  "Could not generate AI summary at this time."

/-- Outcome of the single `fetch` to the generation endpoint: the promise
rejects, or a response arrives with a status and (when the body has the
expected nested shape) the extracted text. -/
inductive FetchOutcome where
  | rejected
  | response (status : Nat) (extracted : Option String)
deriving DecidableEq

/-- `response.ok`: status in the 2xx range. -/
def responseOk (status : Nat) : Bool := 200 ≤ status && status ≤ 299

/-- JS falsiness of the `GEMINI_API_KEY` environment value (`undefined` or
the empty string). -/
def keyFalsy : Option String → Bool
  | none => true
  | some s => s = ""

/-- Observable result of one `generateAISummary` call: the text left in the
summary element, how many HTTP requests were issued, and the category name
embedded in the prompt (`largestExpenseCategory || "None"`), `none` when no
prompt was built. -/
structure AIRun where
  displayed : String
  requests : Nat
  promptCategory : Option String
deriving DecidableEq

/-- `generateAISummary`, parameterized by the configured API key and by the
outcome of the (at most one) network request. -/
def generateAISummary (apiKey : Option String) (rawData : List Tx)
    (outcome : FetchOutcome) : AIRun :=
  if keyFalsy apiKey then ⟨missingKeyMessage, 0, none⟩
  else
    let cat := (largestExpenseCategory rawData).getD "None"
    match outcome with
    | .rejected => ⟨failureMessage, 1, some cat⟩
    | .response status extracted =>
        if responseOk status then
          match extracted with
          | some text => ⟨text, 1, some cat⟩
          | none => ⟨failureMessage, 1, some cat⟩
        else ⟨failureMessage, 1, some cat⟩

/-! ## Derived quantities used in the statements -/

/-- The keys present right after seeding (and, since transaction
application never adds keys, also the keys of the final `groupedData`). -/
def seededKeys (s e : Int) : List Int := (seededData s e).map Prod.fst

/-- Total income content of a `groupedData` object. -/
def totalIncomeOf (g : GroupedData) : ℚ :=
  (g.map (fun p => p.2.income)).sum

/-- Total expense content of a `groupedData` object. -/
def totalExpenseOf (g : GroupedData) : ℚ :=
  (g.map (fun p => p.2.expense)).sum

/-- Sum of the amounts of the income transactions of a list. -/
def incomeTotal (data : List Tx) : ℚ :=
  ((data.filter (fun t => t.ttype = .income)).map Tx.amount).sum

/-- Sum of the amounts of the expense transactions of a list. -/
def expenseTotal (data : List Tx) : ℚ :=
  ((data.filter (fun t => t.ttype = .expense)).map Tx.amount).sum

/-! # Theorems -/

/-- Claim C2: granularity selection in `processChartData` is a step
function of the inclusive day-count span with the largest threshold
winning: spans over 730 days are yearly, spans over 180 (up to 730) are
monthly, spans over 45 (up to 180) are weekly, all other spans are daily;
a 60-day range is weekly, a 200-day range monthly, an 800-day range
yearly, and quarterly granularity is never selected. -/
theorem claim_C2 (s e : Int) :
    (chartDayCount s e > 730 → chartAgg s e = .yearly) ∧
    (180 < chartDayCount s e ∧ chartDayCount s e ≤ 730 →
      chartAgg s e = .monthly) ∧
    (45 < chartDayCount s e ∧ chartDayCount s e ≤ 180 →
      chartAgg s e = .weekly) ∧
    (chartDayCount s e ≤ 45 → chartAgg s e = .daily) ∧
    chartAgg s e ≠ .quarterly ∧
    chartAgg s (s + 59) = .weekly ∧
    chartAgg s (s + 199) = .monthly ∧
    chartAgg s (s + 799) = .yearly := by
  refine ⟨?_, ?_, ?_, ?_, ?_, ?_, ?_, ?_⟩ <;>
    simp only [chartAgg, chartDayCount, aggregationType] <;>
    intros <;> split_ifs <;> first | rfl | omega | simp_all

/-- Witness for C2 at concrete spans. -/
theorem claim_C2_witness :
    chartAgg 0 1000 = .yearly ∧ chartAgg 0 199 = .monthly ∧
    chartAgg 0 59 = .weekly ∧ chartAgg 0 9 = .daily :=
  ⟨(claim_C2 0 1000).1 (by decide),
   (claim_C2 0 199).2.1 (by decide),
   (claim_C2 0 59).2.2.1 (by decide),
   (claim_C2 0 9).2.2.2.1 (by decide)⟩

/-- Claim C5: `updateGlobalSummary` derives net profit as income minus
expenses, the tax reserve as income times the fixed rate 0.25, the
recommended savings as net profit times the fixed rate 0.2 floored at
zero, and the safe-to-spend balance as net profit minus tax reserve minus
recommended savings. -/
theorem claim_C5 (totalIncome totalExpenses : ℚ) :
    (updateGlobalSummary totalIncome totalExpenses).netProfit =
      totalIncome - totalExpenses ∧
    (updateGlobalSummary totalIncome totalExpenses).taxToSave =
      totalIncome * (25 / 100) ∧
    (updateGlobalSummary totalIncome totalExpenses).recommendedSavings =
      max 0 ((totalIncome - totalExpenses) * (20 / 100)) ∧
    (updateGlobalSummary totalIncome totalExpenses).availableBalance =
      (totalIncome - totalExpenses) - totalIncome * (25 / 100) -
        max 0 ((totalIncome - totalExpenses) * (20 / 100)) := by
  unfold updateGlobalSummary TAX_RATE SAVINGS_RATE
  norm_num

/-- Claim C6: the profit margin equals `(net profit / income) * 100` when
income is positive, `-100` when income is not positive and net profit is
negative, and `0` otherwise; the displayed bar width is the margin's
magnitude clipped to at most 100. -/
theorem claim_C6 (totalIncome totalExpenses : ℚ) :
    (totalIncome > 0 →
      profitMargin totalIncome totalExpenses =
        (totalIncome - totalExpenses) / totalIncome * 100) ∧
    (¬ totalIncome > 0 → totalIncome - totalExpenses < 0 →
      profitMargin totalIncome totalExpenses = -100) ∧
    (¬ totalIncome > 0 → ¬ totalIncome - totalExpenses < 0 →
      profitMargin totalIncome totalExpenses = 0) ∧
    (marginBarOf (profitMargin totalIncome totalExpenses)).width =
      min 100 |profitMargin totalIncome totalExpenses| := by
  refine ⟨?_, ?_, ?_, ?_⟩
  · intro h; unfold profitMargin; rw [if_pos h]
  · intro h1 h2; unfold profitMargin; rw [if_neg h1, if_pos h2]
  · intro h1 h2; unfold profitMargin; rw [if_neg h1, if_neg h2]
  · unfold marginBarOf
    split_ifs with h
    · simp [abs_of_nonneg h]
    · rfl

/-- Witness for C6 at concrete totals. -/
theorem claim_C6_witness :
    profitMargin 200 50 = (200 - 50) / 200 * 100 ∧
    profitMargin 0 5 = -100 ∧
    profitMargin 0 0 = 0 :=
  ⟨(claim_C6 200 50).1 (by norm_num),
   (claim_C6 0 5).2.1 (by norm_num) (by norm_num),
   (claim_C6 0 0).2.2.1 (by norm_num) (by norm_num)⟩

/-- Claim C7: `updateTotalPages` sets the total page count to the
transaction count divided by the page size 10, rounded up, with a minimum
of 1; in particular a count of 0 yields 1 page.  Rounding up is stated by
the two bracketing inequalities. -/
theorem claim_C7 (count : Nat) :
    updateTotalPages 0 = 1 ∧
    1 ≤ updateTotalPages count ∧
    (0 < count →
      count ≤ TRANSACTIONS_PER_PAGE * updateTotalPages count ∧
      TRANSACTIONS_PER_PAGE * (updateTotalPages count - 1) < count) := by
  refine ⟨by decide, ?_, ?_⟩ <;>
    simp only [updateTotalPages, TRANSACTIONS_PER_PAGE] <;>
    split_ifs <;> omega

/-- Witness for C7 at a concrete count. -/
theorem claim_C7_witness :
    25 ≤ TRANSACTIONS_PER_PAGE * updateTotalPages 25 ∧
    TRANSACTIONS_PER_PAGE * (updateTotalPages 25 - 1) < 25 :=
  (claim_C7 25).2.2 (by decide)

/-- Claim C9: a missing (falsy) API credential yields the fixed
missing-key message with no HTTP request; a rejected request or a non-2xx
response yields the fixed failure message; at most one request is ever
issued (no retry). -/
theorem claim_C9 (apiKey : Option String) (rawData : List Tx)
    (outcome : FetchOutcome) :
    (keyFalsy apiKey = true →
      (generateAISummary apiKey rawData outcome).displayed =
          missingKeyMessage ∧
        (generateAISummary apiKey rawData outcome).requests = 0) ∧
    (keyFalsy apiKey = false → outcome = .rejected →
      (generateAISummary apiKey rawData outcome).displayed =
        failureMessage) ∧
    (keyFalsy apiKey = false →
      ∀ status extracted, responseOk status = false →
        outcome = .response status extracted →
        (generateAISummary apiKey rawData outcome).displayed =
          failureMessage) ∧
    (generateAISummary apiKey rawData outcome).requests ≤ 1 := by
  refine ⟨?_, ?_, ?_, ?_⟩
  · intro h
    simp [generateAISummary, h]
  · intro h hout
    subst hout
    simp [generateAISummary, h]
  · intro h status extracted hok hout
    subst hout
    simp [generateAISummary, h, hok]
  · unfold generateAISummary
    by_cases hk : keyFalsy apiKey
    · simp [hk]
    · simp only [hk, Bool.false_eq_true, if_false]
      cases outcome with
      | rejected => simp
      | response status extracted =>
          by_cases hok : responseOk status
          · cases extracted <;> simp [hok]
          · simp [hok]

/-- Witness for C9: the three failure modes at concrete inputs. -/
theorem claim_C9_witness :
    ((generateAISummary none [] .rejected).displayed = missingKeyMessage ∧
      (generateAISummary none [] .rejected).requests = 0) ∧
    (generateAISummary (some "k") [] .rejected).displayed =
      failureMessage ∧
    (generateAISummary (some "k") [] (.response 500 (some "text"))).displayed =
      failureMessage :=
  ⟨(claim_C9 none [] .rejected).1 (by decide),
   (claim_C9 (some "k") [] .rejected).2.1 (by decide) rfl,
   (claim_C9 (some "k") [] (.response 500 (some "text"))).2.2.1 (by decide)
     500 (some "text") (by decide) rfl⟩

/-- Helper for C8: the JS `reduce` step picks, among the breakdown
entries, an entry of maximal value, and on ties the one encountered last:
everything before the result is `≤` it, everything after is `<` it. -/
theorem foldl_pickLarger_spec (l : List (String × ℚ)) (h : l ≠ []) :
    ∃ p l₁ l₂, l.foldl pickLarger none = some p ∧ l = l₁ ++ p :: l₂ ∧
      (∀ q ∈ l₁, q.2 ≤ p.2) ∧ (∀ q ∈ l₂, q.2 < p.2) := by
  induction l using List.reverseRecOn with
  | nil => exact absurd rfl h
  | append_singleton l' p ih =>
      rw [List.foldl_append]
      rcases eq_or_ne l' [] with hl' | hl'
      · subst hl'
        exact ⟨p, [], [], rfl, rfl, by simp, by simp⟩
      · obtain ⟨p', l₁, l₂, hfold, hdec, h₁, h₂⟩ := ih hl'
        rw [hfold]
        by_cases hgt : p'.2 > p.2
        · refine ⟨p', l₁, l₂ ++ [p], ?_, ?_, h₁, ?_⟩
          · simp [pickLarger, if_pos hgt]
          · rw [hdec]; simp
          · intro q hq
            rcases List.mem_append.1 hq with hq | hq
            · exact h₂ q hq
            · rw [List.mem_singleton.1 hq]; exact hgt
        · refine ⟨p, l', [], ?_, by simp, ?_, by simp⟩
          · simp [pickLarger, if_neg hgt]
          · intro q hq
            rw [hdec] at hq
            have hle : p'.2 ≤ p.2 := le_of_not_lt hgt
            rcases List.mem_append.1 hq with hq | hq
            · exact le_trans (h₁ q hq) hle
            · rcases List.mem_cons.1 hq with hq | hq
              · rw [hq]; exact hle
              · exact le_trans (le_of_lt (h₂ q hq)) hle

/-- Claim C8 counterexample: with two categories tied at 50, "rent"
encountered first and "food" second, the selected category is "food" (the
last encountered), not the first as claimed. -/
theorem claim_C8_counterexample :
    expenseBreakdown [⟨0, .expense, 50, "rent"⟩, ⟨0, .expense, 50, "food"⟩] =
      [("rent", 50), ("food", 50)] ∧
    largestExpenseCategory
        [⟨0, .expense, 50, "rent"⟩, ⟨0, .expense, 50, "food"⟩] =
      some "food" ∧
    some "food" ≠ some "rent" := by
  refine ⟨?_, ?_, by decide⟩ <;>
    simp [largestExpenseCategory, expenseBreakdown, addToBreakdown,
      pickLarger, List.filter]

/-- Claim C8 (amended): the category embedded in the AI prompt is one
whose summed expense amount is maximal among all categories of the
breakdown; when two or more categories tie for the maximal sum, the one
selected is the last category encountered in iteration order (every
earlier entry is `≤` it, every later entry is strictly below it). -/
theorem claim_C8_amended (data : List Tx)
    (h : expenseBreakdown data ≠ []) :
    ∃ c v l₁ l₂,
      largestExpenseCategory data = some c ∧
      expenseBreakdown data = l₁ ++ (c, v) :: l₂ ∧
      (∀ q ∈ l₁, q.2 ≤ v) ∧ (∀ q ∈ l₂, q.2 < v) := by
  obtain ⟨p, l₁, l₂, hf, hdec, h₁, h₂⟩ := foldl_pickLarger_spec _ h
  refine ⟨p.1, p.2, l₁, l₂, ?_, ?_, h₁, h₂⟩
  · unfold largestExpenseCategory
    rw [hf]
    rfl
  · rw [hdec]

/-- Witness for the amended C8 at a concrete input. -/
theorem claim_C8_amended_witness :
    ∃ c v l₁ l₂,
      largestExpenseCategory
          [⟨0, .expense, 50, "rent"⟩, ⟨0, .expense, 60, "food"⟩] =
        some c ∧
      expenseBreakdown
          [⟨0, .expense, 50, "rent"⟩, ⟨0, .expense, 60, "food"⟩] =
        l₁ ++ (c, v) :: l₂ ∧
      (∀ q ∈ l₁, q.2 ≤ v) ∧ (∀ q ∈ l₂, q.2 < v) :=
  claim_C8_amended [⟨0, .expense, 50, "rent"⟩, ⟨0, .expense, 60, "food"⟩]
    (by simp [expenseBreakdown, addToBreakdown, List.filter])

/-- Helper: writing an absent key appends it (JS insertion order). -/
theorem setKey_eq_append (g : GroupedData) (k : Int) (v : Sums)
    (h : ∀ p ∈ g, p.1 ≠ k) : setKey g k v = g ++ [(k, v)] := by
  induction g with
  | nil => rfl
  | cons hd tl ih =>
      obtain ⟨k', v'⟩ := hd
      have hhd : k' ≠ k := h (k', v') (List.mem_cons_self _ _)
      simp only [setKey, if_neg hhd, List.cons_append]
      rw [ih (fun p hp => h p (List.mem_cons_of_mem _ hp))]

/-- Helper: looking up an absent key yields `none` (JS `undefined`). -/
theorem lookupKey_eq_none (g : GroupedData) (k : Int)
    (h : k ∉ g.map Prod.fst) : lookupKey g k = none := by
  induction g with
  | nil => rfl
  | cons hd tl ih =>
      obtain ⟨k', v'⟩ := hd
      simp only [List.map_cons, List.mem_cons] at h
      push_neg at h
      have h1 : k' ≠ k := fun heq => h.1 heq.symm
      simp only [lookupKey, if_neg h1]
      exact ih h.2

/-- Helper: a successful lookup returns an entry of the list. -/
theorem lookupKey_mem_of_some (g : GroupedData) (k : Int) (v : Sums)
    (h : lookupKey g k = some v) : (k, v) ∈ g := by
  induction g with
  | nil => simp [lookupKey] at h
  | cons hd tl ih =>
      obtain ⟨k', v'⟩ := hd
      by_cases hk : k' = k
      · subst hk
        simp only [lookupKey, if_pos rfl] at h
        obtain rfl := Option.some.inj h
        exact List.mem_cons_self _ _
      · simp only [lookupKey, if_neg hk] at h
        exact List.mem_cons_of_mem _ (ih h)

/-- Helper: a present key looks up successfully. -/
theorem lookupKey_isSome_of_mem (g : GroupedData) (k : Int)
    (h : k ∈ g.map Prod.fst) : ∃ v, lookupKey g k = some v := by
  induction g with
  | nil => simp at h
  | cons hd tl ih =>
      obtain ⟨k', v'⟩ := hd
      by_cases hk : k' = k
      · exact ⟨v', by simp only [lookupKey, if_pos hk]⟩
      · simp only [List.map_cons, List.mem_cons] at h
        rcases h with h | h
        · exact absurd h.symm hk
        · obtain ⟨v, hv⟩ := ih h
          exact ⟨v, by simp only [lookupKey, if_neg hk]; exact hv⟩

/-- Helper: writing one key leaves lookups of other keys unchanged. -/
theorem lookupKey_setKey_ne (g : GroupedData) (k' k : Int) (v : Sums)
    (h : k' ≠ k) : lookupKey (setKey g k' v) k = lookupKey g k := by
  induction g with
  | nil => simp [setKey, lookupKey, if_neg h]
  | cons hd tl ih =>
      obtain ⟨k0, v0⟩ := hd
      by_cases h0 : k0 = k'
      · subst h0
        simp only [setKey, if_pos rfl]
        have hk : k0 ≠ k := fun heq => h (heq ▸ rfl)
        simp only [lookupKey, if_neg hk]
      · simp only [setKey, if_neg h0, lookupKey]
        by_cases hk : k0 = k
        · simp only [if_pos hk]
        · simp only [if_neg hk]
          exact ih

/-- Helper: writing a present key leaves the key sequence unchanged. -/
theorem setKey_map_fst_of_mem (g : GroupedData) (k : Int) (v : Sums)
    (h : k ∈ g.map Prod.fst) :
    (setKey g k v).map Prod.fst = g.map Prod.fst := by
  induction g with
  | nil => simp at h
  | cons hd tl ih =>
      obtain ⟨k0, v0⟩ := hd
      by_cases h0 : k0 = k
      · simp [setKey, if_pos h0]
      · simp only [List.map_cons, List.mem_cons] at h
        rcases h with h | h
        · exact absurd h.symm h0
        · simp only [setKey, if_neg h0, List.map_cons]
          rw [ih h]

/-- Helper: writing any key preserves distinctness of the keys. -/
theorem setKey_map_fst_nodup (g : GroupedData) (k : Int) (v : Sums)
    (h : (g.map Prod.fst).Nodup) :
    ((setKey g k v).map Prod.fst).Nodup := by
  by_cases hm : k ∈ g.map Prod.fst
  · rw [setKey_map_fst_of_mem g k v hm]
    exact h
  · rw [setKey_eq_append g k v
      (fun p hp heq => hm (heq ▸ List.mem_map_of_mem Prod.fst hp))]
    rw [List.map_append]
    rw [List.nodup_append]
    refine ⟨h, by simp, ?_⟩
    intro a ha hb
    simp only [List.map_cons, List.map_nil, List.mem_singleton] at hb
    exact hm (hb ▸ ha)

/-- Helper: the seeding loop keeps the keys distinct. -/
theorem seedLoop_map_fst_nodup (fuel : Nat) :
    ∀ (cur e : Int) (agg : AggType) (g : GroupedData),
      (g.map Prod.fst).Nodup →
      ((seedLoop fuel cur e agg g).map Prod.fst).Nodup := by
  induction fuel with
  | zero => intro cur e agg g h; exact h
  | succ n ih =>
      intro cur e agg g h
      by_cases hle : cur ≤ e
      · simp only [seedLoop, if_pos hle]
        exact ih _ _ _ _ (setKey_map_fst_nodup _ _ _ h)
      · simp only [seedLoop, if_neg hle]
        exact h

/-- Helper: writing the zero record preserves all-zero values. -/
theorem setKey_values_zero (g : GroupedData) (k : Int)
    (hg : ∀ p ∈ g, p.2 = (⟨0, 0⟩ : Sums)) :
    ∀ p ∈ setKey g k ⟨0, 0⟩, p.2 = (⟨0, 0⟩ : Sums) := by
  induction g with
  | nil =>
      intro p hp
      simp only [setKey, List.mem_singleton] at hp
      rw [hp]
  | cons hd tl ih =>
      obtain ⟨k0, v0⟩ := hd
      intro p hp
      by_cases h0 : k0 = k
      · simp only [setKey, if_pos h0, List.mem_cons] at hp
        rcases hp with hp | hp
        · rw [hp]
        · exact hg p (List.mem_cons_of_mem _ hp)
      · simp only [setKey, if_neg h0, List.mem_cons] at hp
        rcases hp with hp | hp
        · rw [hp]; exact hg (k0, v0) (List.mem_cons_self _ _)
        · exact ih (fun q hq => hg q (List.mem_cons_of_mem _ hq)) p hp

/-- Helper: every value produced by the seeding loop is the zero record. -/
theorem seedLoop_values_zero (fuel : Nat) :
    ∀ (cur e : Int) (agg : AggType) (g : GroupedData),
      (∀ p ∈ g, p.2 = (⟨0, 0⟩ : Sums)) →
      ∀ p ∈ seedLoop fuel cur e agg g, p.2 = (⟨0, 0⟩ : Sums) := by
  induction fuel with
  | zero => intro cur e agg g h; exact h
  | succ n ih =>
      intro cur e agg g h
      by_cases hle : cur ≤ e
      · simp only [seedLoop, if_pos hle]
        exact ih _ _ _ _ (setKey_values_zero _ _ h)
      · simp only [seedLoop, if_neg hle]
        exact h

/-- Helper: applying a transaction never changes the key sequence. -/
theorem applyTx_map_fst (agg : AggType) (g : GroupedData) (t : Tx) :
    (applyTx agg g t).map Prod.fst = g.map Prod.fst := by
  cases hl : lookupKey g (bucketKey agg t.date) with
  | none => simp [applyTx, hl]
  | some sums =>
      have hmem : bucketKey agg t.date ∈ g.map Prod.fst :=
        List.mem_map_of_mem Prod.fst (lookupKey_mem_of_some _ _ _ hl)
      by_cases hty : t.ttype = .income
      · simp only [applyTx, hl, if_pos hty]
        exact setKey_map_fst_of_mem _ _ _ hmem
      · simp only [applyTx, hl, if_neg hty]
        exact setKey_map_fst_of_mem _ _ _ hmem

/-- Helper: the accumulation pass never changes the key sequence. -/
theorem foldl_applyTx_map_fst (agg : AggType) (data : List Tx) :
    ∀ g : GroupedData,
      (data.foldl (applyTx agg) g).map Prod.fst = g.map Prod.fst := by
  induction data with
  | nil => intro g; rfl
  | cons t ts ih =>
      intro g
      simp only [List.foldl_cons]
      rw [ih, applyTx_map_fst]

/-- Helper: keys of the final grouped data are the seeded keys. -/
theorem groupedOf_map_fst (data : List Tx) (s e : Int) :
    (groupedOf data s e).map Prod.fst = seededKeys s e := by
  unfold groupedOf seededKeys
  exact foldl_applyTx_map_fst _ _ _

/-- Helper: keys of the final grouped data are distinct. -/
theorem groupedOf_map_fst_nodup (data : List Tx) (s e : Int) :
    ((groupedOf data s e).map Prod.fst).Nodup := by
  rw [groupedOf_map_fst]
  unfold seededKeys seededData
  exact seedLoop_map_fst_nodup _ _ _ _ _ (by simp)

/-- Helper: applying a transaction whose bucket key differs from `k` leaves
the lookup of `k` unchanged. -/
theorem lookupKey_applyTx_ne (agg : AggType) (g : GroupedData) (t : Tx)
    (k : Int) (h : bucketKey agg t.date ≠ k) :
    lookupKey (applyTx agg g t) k = lookupKey g k := by
  cases hl : lookupKey g (bucketKey agg t.date) with
  | none => simp [applyTx, hl]
  | some sums =>
      by_cases hty : t.ttype = .income
      · simp only [applyTx, hl, if_pos hty]
        exact lookupKey_setKey_ne g _ k _ h
      · simp only [applyTx, hl, if_neg hty]
        exact lookupKey_setKey_ne g _ k _ h

/-- Helper: a bucket hit by no transaction keeps its seeded value. -/
theorem lookupKey_foldl_not_hit (agg : AggType) (data : List Tx) (k : Int) :
    ∀ g : GroupedData, (∀ t ∈ data, bucketKey agg t.date ≠ k) →
      lookupKey (data.foldl (applyTx agg) g) k = lookupKey g k := by
  induction data with
  | nil => intro g _; rfl
  | cons t ts ih =>
      intro g hnot
      simp only [List.foldl_cons]
      rw [ih _ (fun t' ht' => hnot t' (List.mem_cons_of_mem _ ht'))]
      exact lookupKey_applyTx_ne agg g t k (hnot t (List.mem_cons_self _ _))

/-- Helper: `TType` has exactly the two values used by the app. -/
theorem not_income_iff (x : TType) :
    ¬ x = TType.income ↔ x = TType.expense := by
  cases x <;> simp

/-- Helper: overwriting a present key changes the income total by the
difference of the stored values. -/
theorem totalIncomeOf_setKey (g : GroupedData) (k : Int) (v sums : Sums)
    (h : lookupKey g k = some sums) :
    totalIncomeOf (setKey g k v) =
      totalIncomeOf g - sums.income + v.income := by
  induction g with
  | nil => simp [lookupKey] at h
  | cons hd tl ih =>
      obtain ⟨k0, v0⟩ := hd
      by_cases h0 : k0 = k
      · simp only [lookupKey, if_pos h0] at h
        obtain rfl := Option.some.inj h
        simp only [setKey, if_pos h0, totalIncomeOf, List.map_cons,
          List.sum_cons]
        ring
      · simp only [lookupKey, if_neg h0] at h
        simp only [setKey, if_neg h0, totalIncomeOf, List.map_cons,
          List.sum_cons]
        have := ih h
        simp only [totalIncomeOf] at this
        rw [this]
        ring

/-- Helper: overwriting a present key changes the expense total by the
difference of the stored values. -/
theorem totalExpenseOf_setKey (g : GroupedData) (k : Int) (v sums : Sums)
    (h : lookupKey g k = some sums) :
    totalExpenseOf (setKey g k v) =
      totalExpenseOf g - sums.expense + v.expense := by
  induction g with
  | nil => simp [lookupKey] at h
  | cons hd tl ih =>
      obtain ⟨k0, v0⟩ := hd
      by_cases h0 : k0 = k
      · simp only [lookupKey, if_pos h0] at h
        obtain rfl := Option.some.inj h
        simp only [setKey, if_pos h0, totalExpenseOf, List.map_cons,
          List.sum_cons]
        ring
      · simp only [lookupKey, if_neg h0] at h
        simp only [setKey, if_neg h0, totalExpenseOf, List.map_cons,
          List.sum_cons]
        have := ih h
        simp only [totalExpenseOf] at this
        rw [this]
        ring

/-- Helper: applying one transaction adds its amount to the income total
exactly when its bucket is present and its type is income. -/
theorem totalIncomeOf_applyTx (agg : AggType) (g : GroupedData) (t : Tx) :
    totalIncomeOf (applyTx agg g t) = totalIncomeOf g +
      (if bucketKey agg t.date ∈ g.map Prod.fst ∧ t.ttype = .income
        then t.amount else 0) := by
  cases hl : lookupKey g (bucketKey agg t.date) with
  | none =>
      have hnm : bucketKey agg t.date ∉ g.map Prod.fst := by
        intro hm
        obtain ⟨v, hv⟩ := lookupKey_isSome_of_mem g _ hm
        rw [hv] at hl
        cases hl
      simp only [applyTx, hl]
      rw [if_neg (fun hc => hnm hc.1)]
      ring
  | some sums =>
      have hmem : bucketKey agg t.date ∈ g.map Prod.fst :=
        List.mem_map_of_mem Prod.fst (lookupKey_mem_of_some _ _ _ hl)
      by_cases hty : t.ttype = .income
      · simp only [applyTx, hl, if_pos hty]
        rw [totalIncomeOf_setKey g _ _ sums hl, if_pos ⟨hmem, hty⟩]
        show totalIncomeOf g - sums.income + (sums.income + t.amount) =
          totalIncomeOf g + t.amount
        ring
      · simp only [applyTx, hl, if_neg hty]
        rw [totalIncomeOf_setKey g _ _ sums hl,
          if_neg (fun hc => hty hc.2)]
        show totalIncomeOf g - sums.income + sums.income =
          totalIncomeOf g + 0
        ring

/-- Helper: applying one transaction adds its amount to the expense total
exactly when its bucket is present and its type is expense. -/
theorem totalExpenseOf_applyTx (agg : AggType) (g : GroupedData) (t : Tx) :
    totalExpenseOf (applyTx agg g t) = totalExpenseOf g +
      (if bucketKey agg t.date ∈ g.map Prod.fst ∧ t.ttype = .expense
        then t.amount else 0) := by
  cases hl : lookupKey g (bucketKey agg t.date) with
  | none =>
      have hnm : bucketKey agg t.date ∉ g.map Prod.fst := by
        intro hm
        obtain ⟨v, hv⟩ := lookupKey_isSome_of_mem g _ hm
        rw [hv] at hl
        cases hl
      simp only [applyTx, hl]
      rw [if_neg (fun hc => hnm hc.1)]
      ring
  | some sums =>
      have hmem : bucketKey agg t.date ∈ g.map Prod.fst :=
        List.mem_map_of_mem Prod.fst (lookupKey_mem_of_some _ _ _ hl)
      by_cases hty : t.ttype = .income
      · simp only [applyTx, hl, if_pos hty]
        rw [totalExpenseOf_setKey g _ _ sums hl,
          if_neg (fun hc => ((not_income_iff t.ttype).2 hc.2) hty)]
        show totalExpenseOf g - sums.expense + sums.expense =
          totalExpenseOf g + 0
        ring
      · simp only [applyTx, hl, if_neg hty]
        rw [totalExpenseOf_setKey g _ _ sums hl,
          if_pos ⟨hmem, (not_income_iff t.ttype).1 hty⟩]
        show totalExpenseOf g - sums.expense + (sums.expense + t.amount) =
          totalExpenseOf g + t.amount
        ring

/-- Helper: income total of a cons. -/
theorem incomeTotal_cons (t : Tx) (ts : List Tx) :
    incomeTotal (t :: ts) =
      (if t.ttype = .income then t.amount else 0) + incomeTotal ts := by
  by_cases hty : t.ttype = .income
  · simp [incomeTotal, List.filter_cons, hty]
  · simp [incomeTotal, List.filter_cons, hty]

/-- Helper: expense total of a cons. -/
theorem expenseTotal_cons (t : Tx) (ts : List Tx) :
    expenseTotal (t :: ts) =
      (if t.ttype = .expense then t.amount else 0) + expenseTotal ts := by
  by_cases hty : t.ttype = .expense
  · simp [expenseTotal, List.filter_cons, hty]
  · simp [expenseTotal, List.filter_cons, hty]

/-- Helper: the accumulation pass adds exactly the income amounts of the
transactions whose bucket key is present in the initial object. -/
theorem totalIncomeOf_foldl (agg : AggType) (data : List Tx) :
    ∀ g : GroupedData,
      totalIncomeOf (data.foldl (applyTx agg) g) =
        totalIncomeOf g +
          incomeTotal (data.filter
            (fun t => bucketKey agg t.date ∈ g.map Prod.fst)) := by
  induction data with
  | nil => intro g; simp [incomeTotal]
  | cons t ts ih =>
      intro g
      simp only [List.foldl_cons]
      rw [ih (applyTx agg g t)]
      simp only [applyTx_map_fst]
      rw [totalIncomeOf_applyTx, List.filter_cons]
      simp only [decide_eq_true_eq]
      by_cases hmem : bucketKey agg t.date ∈ g.map Prod.fst
      · rw [if_pos hmem, incomeTotal_cons]
        by_cases hty : t.ttype = .income
        · rw [if_pos ⟨hmem, hty⟩, if_pos hty]
          ring
        · rw [if_neg (fun hc => hty hc.2), if_neg hty]
          ring
      · rw [if_neg hmem, if_neg (fun hc => hmem hc.1)]
        ring

/-- Helper: the accumulation pass adds exactly the expense amounts of the
transactions whose bucket key is present in the initial object. -/
theorem totalExpenseOf_foldl (agg : AggType) (data : List Tx) :
    ∀ g : GroupedData,
      totalExpenseOf (data.foldl (applyTx agg) g) =
        totalExpenseOf g +
          expenseTotal (data.filter
            (fun t => bucketKey agg t.date ∈ g.map Prod.fst)) := by
  induction data with
  | nil => intro g; simp [expenseTotal]
  | cons t ts ih =>
      intro g
      simp only [List.foldl_cons]
      rw [ih (applyTx agg g t)]
      simp only [applyTx_map_fst]
      rw [totalExpenseOf_applyTx, List.filter_cons]
      simp only [decide_eq_true_eq]
      by_cases hmem : bucketKey agg t.date ∈ g.map Prod.fst
      · rw [if_pos hmem, expenseTotal_cons]
        by_cases hty : t.ttype = .expense
        · rw [if_pos ⟨hmem, hty⟩, if_pos hty]
          ring
        · rw [if_neg (fun hc => hty hc.2), if_neg hty]
          ring
      · rw [if_neg hmem, if_neg (fun hc => hmem hc.1)]
        ring

/-- Helper: the seeded object has zero income total. -/
theorem totalIncomeOf_seeded (s e : Int) :
    totalIncomeOf (seededData s e) = 0 := by
  apply List.sum_eq_zero
  intro x hx
  obtain ⟨p, hp, rfl⟩ := List.mem_map.1 hx
  have hz : p.2 = (⟨0, 0⟩ : Sums) :=
    seedLoop_values_zero _ _ _ _ _ (by simp) p hp
  rw [hz]

/-- Helper: the seeded object has zero expense total. -/
theorem totalExpenseOf_seeded (s e : Int) :
    totalExpenseOf (seededData s e) = 0 := by
  apply List.sum_eq_zero
  intro x hx
  obtain ⟨p, hp, rfl⟩ := List.mem_map.1 hx
  have hz : p.2 = (⟨0, 0⟩ : Sums) :=
    seedLoop_values_zero _ _ _ _ _ (by simp) p hp
  rw [hz]

/-- Helper: mapping lookups over the key sequence of a distinct-keyed
association list recovers its values. -/
theorem map_lookup_keys (g : GroupedData) (f : Sums → ℚ)
    (h : (g.map Prod.fst).Nodup) :
    (g.map Prod.fst).map (fun k => f ((lookupKey g k).getD ⟨0, 0⟩)) =
      g.map (fun p => f p.2) := by
  induction g with
  | nil => rfl
  | cons hd tl ih =>
      obtain ⟨k, v⟩ := hd
      simp only [List.map_cons, List.nodup_cons] at h ⊢
      obtain ⟨hk, htl⟩ := h
      have h1 : lookupKey ((k, v) :: tl) k = some v := by
        simp [lookupKey]
      rw [h1]
      simp only [Option.getD_some]
      congr 1
      have h2 : ∀ k' ∈ tl.map Prod.fst,
          f ((lookupKey ((k, v) :: tl) k').getD ⟨0, 0⟩) =
          f ((lookupKey tl k').getD ⟨0, 0⟩) := by
        intro k' hk'
        have hne : ¬ k = k' := fun heq => hk (by rw [heq]; exact hk')
        simp only [lookupKey, if_neg hne]
      rw [List.map_congr_left h2, ih htl]

/-- Helper: the income series sums to the income total of the grouped
object (sorting is a permutation, keys are distinct). -/
theorem chart_income_sum (data : List Tx) (s e : Int) :
    ((chartKeys data s e).map
      (fun k => ((lookupKey (groupedOf data s e) k).getD ⟨0, 0⟩).income)).sum
      = totalIncomeOf (groupedOf data s e) := by
  have hperm : (chartKeys data s e).Perm
      ((groupedOf data s e).map Prod.fst) := List.perm_insertionSort _ _
  rw [(hperm.map
    (fun k => ((lookupKey (groupedOf data s e) k).getD ⟨0, 0⟩).income)).sum_eq]
  exact congrArg List.sum
    (map_lookup_keys (groupedOf data s e) (fun sums => sums.income)
      (groupedOf_map_fst_nodup data s e))

/-- Helper: the expense series sums to the expense total of the grouped
object. -/
theorem chart_expense_sum (data : List Tx) (s e : Int) :
    ((chartKeys data s e).map
      (fun k => ((lookupKey (groupedOf data s e) k).getD ⟨0, 0⟩).expense)).sum
      = totalExpenseOf (groupedOf data s e) := by
  have hperm : (chartKeys data s e).Perm
      ((groupedOf data s e).map Prod.fst) := List.perm_insertionSort _ _
  rw [(hperm.map
    (fun k => ((lookupKey (groupedOf data s e) k).getD ⟨0, 0⟩).expense)).sum_eq]
  exact congrArg List.sum
    (map_lookup_keys (groupedOf data s e) (fun sums => sums.expense)
      (groupedOf_map_fst_nodup data s e))

/-- Helper: total income of the grouped object is the income total of the
transactions whose bucket key was seeded. -/
theorem totalIncomeOf_grouped (data : List Tx) (s e : Int) :
    totalIncomeOf (groupedOf data s e) =
      incomeTotal (data.filter
        (fun t => bucketKey (chartAgg s e) t.date ∈ seededKeys s e)) := by
  unfold groupedOf
  rw [totalIncomeOf_foldl, totalIncomeOf_seeded, zero_add]
  rfl

/-- Helper: total expense of the grouped object is the expense total of
the transactions whose bucket key was seeded. -/
theorem totalExpenseOf_grouped (data : List Tx) (s e : Int) :
    totalExpenseOf (groupedOf data s e) =
      expenseTotal (data.filter
        (fun t => bucketKey (chartAgg s e) t.date ∈ seededKeys s e)) := by
  unfold groupedOf
  rw [totalExpenseOf_foldl, totalExpenseOf_seeded, zero_add]
  rfl

/-- Helper: closed form for the sum of the returned income series. -/
theorem incomeData_sum (data : List Tx) (s e : Int) :
    (processChartData data s e).incomeData.sum =
      incomeTotal (data.filter
        (fun t => bucketKey (chartAgg s e) t.date ∈ seededKeys s e)) := by
  have h : (processChartData data s e).incomeData =
      (chartKeys data s e).map
        (fun k => ((lookupKey (groupedOf data s e) k).getD ⟨0, 0⟩).income) :=
    rfl
  rw [h, chart_income_sum, totalIncomeOf_grouped]

/-- Helper: closed form for the sum of the returned expense series. -/
theorem expenseData_sum (data : List Tx) (s e : Int) :
    (processChartData data s e).expenseData.sum =
      expenseTotal (data.filter
        (fun t => bucketKey (chartAgg s e) t.date ∈ seededKeys s e)) := by
  have h : (processChartData data s e).expenseData =
      (chartKeys data s e).map
        (fun k => ((lookupKey (groupedOf data s e) k).getD ⟨0, 0⟩).expense) :=
    rfl
  rw [h, chart_expense_sum, totalExpenseOf_grouped]

/-- Helper: with daily granularity the seeding loop appends exactly one
zero bucket per day of the range, in chronological order. -/
theorem seedLoop_daily (fuel : Nat) : ∀ (cur e : Int) (g : GroupedData),
    e - cur + 1 ≤ (fuel : Int) → (∀ p ∈ g, p.1 < cur) →
    seedLoop fuel cur e .daily g =
      g ++ (List.range (e - cur + 1).toNat).map
        (fun (i : Nat) => (cur + (i : Int), (⟨0, 0⟩ : Sums))) := by
  induction fuel with
  | zero =>
      intro cur e g hf _
      have h0 : (e - cur + 1).toNat = 0 := by omega
      rw [h0]
      simp [seedLoop]
  | succ n ih =>
      intro cur e g hf hg
      by_cases hle : cur ≤ e
      · simp only [seedLoop, if_pos hle]
        have hkey : bucketKey .daily cur = cur := rfl
        have hstep : stepDate .daily cur = cur + 1 := rfl
        rw [hkey, hstep]
        rw [setKey_eq_append g cur ⟨0, 0⟩ (fun p hp => ne_of_lt (hg p hp))]
        rw [ih (cur + 1) e (g ++ [(cur, (⟨0, 0⟩ : Sums))]) (by omega) ?later]
        case later =>
          intro p hp
          rcases List.mem_append.1 hp with hp | hp
          · exact lt_trans (hg p hp) (by omega)
          · rw [List.mem_singleton.1 hp]
            exact lt_add_one cur
        rw [List.append_assoc]
        congr 1
        have hn : (e - cur + 1).toNat = (e - (cur + 1) + 1).toNat + 1 := by
          omega
        rw [hn, List.range_succ_eq_map]
        simp only [List.map_cons, List.map_map, Nat.cast_zero, add_zero,
          List.singleton_append]
        congr 1
        apply List.map_congr_left
        intro i _
        simp only [Function.comp_apply]
        rw [Prod.mk.injEq]
        refine ⟨?_, rfl⟩
        push_cast
        ring
      · have h0 : (e - cur + 1).toNat = 0 := by omega
        simp only [seedLoop, if_neg hle, h0]
        simp

/-- Helper: with daily granularity the seeded keys are exactly the days of
the range, in order. -/
theorem seededKeys_daily (s e : Int) (h : chartAgg s e = .daily) :
    seededKeys s e =
      (List.range (chartDayCount s e).toNat).map
        (fun (i : Nat) => s + (i : Int)) := by
  unfold seededKeys seededData
  rw [h]
  rw [seedLoop_daily (chartDayCount s e).toNat s e []
    (by unfold chartDayCount; exact Int.self_le_toNat _) (by simp)]
  simp only [List.nil_append, List.map_map]
  rfl

/-- Helper: consecutive day lists are sorted. -/
theorem consecutive_sorted (s : Int) (n : Nat) :
    List.Sorted (· ≤ ·)
      ((List.range n).map (fun (i : Nat) => s + (i : Int))) :=
  List.Pairwise.map _ (fun a b hab => by omega)
    (List.pairwise_lt_range n)

/-- Helper: with daily granularity every day of the range is a seeded
bucket key. -/
theorem daily_key_mem (s e d : Int) (h1 : s ≤ d) (h2 : d ≤ e)
    (hagg : chartAgg s e = .daily) : d ∈ seededKeys s e := by
  rw [seededKeys_daily s e hagg]
  refine List.mem_map.2 ⟨(d - s).toNat, List.mem_range.2 ?_, ?_⟩
  · unfold chartDayCount
    omega
  · omega

/-- Claim C1 counterexample: the range day 2 .. day 47 (1970-01-03, a
Saturday, through 1970-02-17; 46 days, so weekly granularity) with a
single income transaction of 100 on day 45, which lies inside the range:
the bucket for the week of day 45 is never seeded (the walking dates stop
at day 44, whose week starts at day 38), so the transaction is dropped and
the income series sums to 0, not 100. -/
theorem claim_C1_counterexample :
    ((2 : Int) ≤ 45 ∧ (45 : Int) ≤ 47) ∧
    incomeTotal [⟨45, .income, 100, ""⟩] = 100 ∧
    (processChartData [⟨45, .income, 100, ""⟩] 2 47).incomeData.sum = 0 := by
  refine ⟨by decide, ?_, ?_⟩
  · simp [incomeTotal, List.filter]
  · have h : (processChartData [⟨45, .income, 100, ""⟩] 2 47).incomeData =
        [0, 0, 0, 0, 0, 0, 0] := by decide
    rw [h]
    norm_num

/-- Claim C1 (amended): for every range and transaction list, the sum of
the income series equals the summed amounts of the income transactions
whose bucket key is among the generated (seeded) bucket keys, and
symmetrically for expense; under daily granularity every in-range
transaction's bucket key is generated, so for in-range transactions the
conservation holds exactly as originally stated. -/
theorem claim_C1_amended (data : List Tx) (s e : Int) :
    ((processChartData data s e).incomeData.sum =
        incomeTotal (data.filter
          (fun t => bucketKey (chartAgg s e) t.date ∈ seededKeys s e)) ∧
      (processChartData data s e).expenseData.sum =
        expenseTotal (data.filter
          (fun t => bucketKey (chartAgg s e) t.date ∈ seededKeys s e))) ∧
    (chartAgg s e = .daily → (∀ t ∈ data, s ≤ t.date ∧ t.date ≤ e) →
      (processChartData data s e).incomeData.sum = incomeTotal data ∧
      (processChartData data s e).expenseData.sum = expenseTotal data) := by
  refine ⟨⟨incomeData_sum data s e, expenseData_sum data s e⟩, ?_⟩
  intro hagg hin
  have hfilter : data.filter
      (fun t => bucketKey (chartAgg s e) t.date ∈ seededKeys s e) = data := by
    apply List.filter_eq_self.2
    intro t ht
    apply decide_eq_true
    have hd := hin t ht
    have hb : bucketKey (chartAgg s e) t.date = t.date := by
      rw [hagg]
      rfl
    rw [hb]
    exact daily_key_mem s e t.date hd.1 hd.2 hagg
  constructor
  · rw [incomeData_sum data s e, hfilter]
  · rw [expenseData_sum data s e, hfilter]

/-- Witness for the amended C1: a 5-day daily range with one income
transaction inside it. -/
theorem claim_C1_amended_witness :
    chartAgg 0 4 = .daily ∧
    ((processChartData [⟨2, .income, 100, ""⟩] 0 4).incomeData.sum =
        incomeTotal [⟨2, .income, 100, ""⟩] ∧
      (processChartData [⟨2, .income, 100, ""⟩] 0 4).expenseData.sum =
        expenseTotal [⟨2, .income, 100, ""⟩]) :=
  ⟨by decide,
   (claim_C1_amended [⟨2, .income, 100, ""⟩] 0 4).2 (by decide) (by decide)⟩

/-- Claim C3: every generated bucket is pre-seeded with income 0 and
expense 0 before any transaction is applied; a seeded bucket hit by no
transaction still holds zero sums in the final grouped object; and for
daily granularity the number of buckets equals the inclusive day count. -/
theorem claim_C3 (data : List Tx) (s e : Int) :
    (∀ p ∈ seededData s e, p.2 = (⟨0, 0⟩ : Sums)) ∧
    (∀ k ∈ seededKeys s e,
      (∀ t ∈ data, bucketKey (chartAgg s e) t.date ≠ k) →
      lookupKey (groupedOf data s e) k = some ⟨0, 0⟩) ∧
    (chartAgg s e = .daily → s ≤ e →
      (chartKeys data s e).length = (chartDayCount s e).toNat) := by
  refine ⟨?_, ?_, ?_⟩
  · intro p hp
    exact seedLoop_values_zero _ _ _ _ _ (by simp) p hp
  · intro k hk hnot
    have hl : lookupKey (groupedOf data s e) k =
        lookupKey (seededData s e) k :=
      lookupKey_foldl_not_hit _ data k _ hnot
    obtain ⟨v, hv⟩ := lookupKey_isSome_of_mem (seededData s e) k hk
    have hmem := lookupKey_mem_of_some _ _ _ hv
    have hz : (k, v).2 = (⟨0, 0⟩ : Sums) :=
      seedLoop_values_zero _ _ _ _ _ (by simp) (k, v) hmem
    rw [hl, hv]
    rw [show v = (⟨0, 0⟩ : Sums) from hz]
  · intro hagg _
    unfold chartKeys
    rw [(List.perm_insertionSort _ _).length_eq]
    have h1 : (groupedOf data s e).map Prod.fst = seededKeys s e :=
      groupedOf_map_fst data s e
    rw [h1, seededKeys_daily s e hagg]
    simp

/-- Witness for C3: the 5-day daily range 0..4, one transaction on day 2;
bucket 3 stays zero, and there are 5 buckets. -/
theorem claim_C3_witness :
    lookupKey (groupedOf [⟨2, .income, 100, ""⟩] 0 4) 3 = some ⟨0, 0⟩ ∧
    (chartKeys [⟨2, .income, 100, ""⟩] 0 4).length =
      (chartDayCount 0 4).toNat :=
  ⟨(claim_C3 [⟨2, .income, 100, ""⟩] 0 4).2.1 3 (by decide) (by decide),
   (claim_C3 [⟨2, .income, 100, ""⟩] 0 4).2.2 (by decide) (by decide)⟩

/-- Claim C4: the sorted bucket keys of `processChartData` are strictly
increasing (no duplicates), and for daily granularity they are exactly the
consecutive days of the requested range, with no gaps. -/
theorem claim_C4 (data : List Tx) (s e : Int) :
    List.Sorted (· < ·) (chartKeys data s e) ∧
    (chartAgg s e = .daily →
      chartKeys data s e =
        (List.range (chartDayCount s e).toNat).map
          (fun (i : Nat) => s + (i : Int))) := by
  constructor
  · have hsorted : List.Sorted (· ≤ ·) (chartKeys data s e) :=
      List.sorted_insertionSort _ _
    have hnodup : (chartKeys data s e).Nodup :=
      (List.perm_insertionSort _ _).symm.nodup
        (groupedOf_map_fst_nodup data s e)
    exact List.Pairwise.imp (fun hab => lt_of_le_of_ne hab.1 hab.2)
      (hsorted.and hnodup)
  · intro hagg
    unfold chartKeys
    rw [groupedOf_map_fst, seededKeys_daily s e hagg]
    exact List.Sorted.insertionSort_eq (consecutive_sorted s _)

/-- Witness for C4: daily keys of the range 0..4 are the five consecutive
days. -/
theorem claim_C4_witness :
    chartKeys [] 0 4 =
      (List.range (chartDayCount 0 4).toNat).map
        (fun (i : Nat) => (0 : Int) + (i : Int)) :=
  (claim_C4 [] 0 4).2 (by decide)

/-- Helper: in-bounds `getD` commutes with `map`. -/
theorem getD_map_lt {α β : Type} (l : List α) (f : α → β) (i : Nat)
    (d : α) (db : β) (h : i < l.length) :
    (l.map f).getD i db = f (l.getD i d) := by
  rw [List.getD_eq_getElem?_getD, List.getD_eq_getElem?_getD,
    List.getElem?_map, List.getElem?_eq_getElem h]
  simp

/-- Claim C10: the four sequences returned by `processChartData` all have
the same length, the number of distinct bucket keys, and the `i`-th
entries of all four refer to the `i`-th key in sorted order. -/
theorem claim_C10 (data : List Tx) (s e : Int) :
    (processChartData data s e).labels.length =
      (chartKeys data s e).length ∧
    (processChartData data s e).tooltipTitles.length =
      (chartKeys data s e).length ∧
    (processChartData data s e).incomeData.length =
      (chartKeys data s e).length ∧
    (processChartData data s e).expenseData.length =
      (chartKeys data s e).length ∧
    ∀ i, i < (chartKeys data s e).length →
      (processChartData data s e).labels.getD i "" =
        labelFor (chartAgg s e) ((chartKeys data s e).getD i 0) ∧
      (processChartData data s e).tooltipTitles.getD i "" =
        tooltipFor (chartAgg s e) ((chartKeys data s e).getD i 0) ∧
      (processChartData data s e).incomeData.getD i 0 =
        ((lookupKey (groupedOf data s e)
          ((chartKeys data s e).getD i 0)).getD ⟨0, 0⟩).income ∧
      (processChartData data s e).expenseData.getD i 0 =
        ((lookupKey (groupedOf data s e)
          ((chartKeys data s e).getD i 0)).getD ⟨0, 0⟩).expense := by
  refine ⟨List.length_map _ _, List.length_map _ _, List.length_map _ _,
    List.length_map _ _, ?_⟩
  intro i hi
  refine ⟨?_, ?_, ?_, ?_⟩
  · exact getD_map_lt (chartKeys data s e) (labelFor (chartAgg s e)) i 0 "" hi
  · exact getD_map_lt (chartKeys data s e) (tooltipFor (chartAgg s e)) i 0 "" hi
  · exact getD_map_lt (chartKeys data s e)
      (fun k => ((lookupKey (groupedOf data s e) k).getD ⟨0, 0⟩).income)
      i 0 0 hi
  · exact getD_map_lt (chartKeys data s e)
      (fun k => ((lookupKey (groupedOf data s e) k).getD ⟨0, 0⟩).expense)
      i 0 0 hi

/-- Witness for C10 at a concrete range and index. -/
theorem claim_C10_witness :
    (processChartData [] 0 2).labels.getD 0 "" =
      labelFor (chartAgg 0 2) ((chartKeys [] 0 2).getD 0 0) ∧
    (processChartData [] 0 2).tooltipTitles.getD 0 "" =
      tooltipFor (chartAgg 0 2) ((chartKeys [] 0 2).getD 0 0) ∧
    (processChartData [] 0 2).incomeData.getD 0 0 =
      ((lookupKey (groupedOf [] 0 2)
        ((chartKeys [] 0 2).getD 0 0)).getD ⟨0, 0⟩).income ∧
    (processChartData [] 0 2).expenseData.getD 0 0 =
      ((lookupKey (groupedOf [] 0 2)
        ((chartKeys [] 0 2).getD 0 0)).getD ⟨0, 0⟩).expense :=
  (claim_C10 [] 0 2).2.2.2.2 0 (by decide)
